import Mathlib

/-!
Shallow embedding of the bevy-vello lottie player core
(`src/lottie_player.rs`, `src/playback/playback_settings.rs`).

Conventions of the embedding:
* `f32` values are modelled as `ℚ`.
* Rust `f32::trunc` (round toward zero) is `qtrunc`; Rust `%` on floats
  (remainder with the sign of the dividend) is `rust_rem`.
* `f32::prev()` (the largest float strictly below the argument, from
  `vello_svg::usvg::strict_num::Ulps`) is modelled as subtracting a fixed
  positive epsilon `feps`; the claims under study only need that the result
  is strictly below the argument and close to it.
* `Instant` timestamps are rational "seconds since start"; `elapsed()` at
  time `now` is `now - t`.
* Bevy `Handle<VelloAsset>` is a `Nat` id; `Assets<VelloAsset>` is an
  association list from ids to assets.
* The pointer hit test of `run_transitions` (a matrix computation over the
  window, camera and transforms, all external collaborators) is reduced to
  the boolean it produces, carried in `TransCtx.is_inside`, exactly as the
  spec's interface contract describes it.
-/

/-- Rust `f32::trunc`: round toward zero. -/
def qtrunc (x : ℚ) : ℤ := if 0 ≤ x then ⌊x⌋ else ⌈x⌉

/-- Fixed positive epsilon standing for one ulp. -/
def feps : ℚ := 1 / 8388608

/-- Model of `f32::prev()`: the value one ulp below `x`. -/
def fprev (x : ℚ) : ℚ := x - feps

/-- Rust `%` on floats: `a - (a / b).trunc() * b`. -/
def rust_rem (a b : ℚ) : ℚ := a - ((qtrunc (a / b) : ℤ) : ℚ) * b

/-- Rust `f32::clamp`: restrict `x` to `[lo, hi]`. -/
def rclamp (x lo hi : ℚ) : ℚ := min (max x lo) hi

/-- `f32::MIN`. -/
def f32MIN : ℚ := -340282346638528859811704183484516925440

/-- `f32::MAX`. -/
def f32MAX : ℚ := 340282346638528859811704183484516925440

/-- `Range<f32>`: `stop` embeds the Rust field `end` (a Lean keyword). -/
structure FRange where
  start : ℚ
  stop : ℚ
deriving DecidableEq

/-- The direction to play the segments of a lottie animation
(`AnimationDirection` as used by `lottie_player.rs`). -/
inductive AnimationDirection where
  | Normal
  | Reverse
deriving DecidableEq

/-- How often to loop (`PlaybackLoopBehavior`). -/
inductive PlaybackLoopBehavior where
  | DoNotLoop
  | Amount (n : Nat)
  | Loop
deriving DecidableEq

/-- Playback settings which adjust the playback of a vello asset.
`intermission` is kept in the frame unit the player arithmetic uses. -/
structure PlaybackSettings where
  autoplay : Bool
  direction : AnimationDirection
  speed : ℚ
  intermission : ℚ
  looping : PlaybackLoopBehavior
  segments : FRange
deriving DecidableEq

/-- `PlaybackSettings::default()`. -/
def default_playback_settings : PlaybackSettings where
  autoplay := true
  direction := .Normal
  speed := 1
  intermission := 0
  looping := .Loop
  segments := ⟨f32MIN, f32MAX⟩

/-- The read-only composition data of a lottie asset: frame bounds and rate. -/
structure VelloComposition where
  frames : FRange
  frame_rate : ℚ
deriving DecidableEq

/-- `VelloAssetData`: an SVG (no frame concept) or a Lottie with a
composition, an optional first-render timestamp and the playhead. -/
inductive VelloAssetData where
  | Svg (first_frame : Option ℚ)
  | Lottie (composition : VelloComposition) (first_frame : Option ℚ) (rendered_frames : ℚ)
deriving DecidableEq

/-- A vello asset. The width/height/local-transform fields used only by the
pointer hit test (an external collaborator here) are omitted; the hit test
result is carried by `TransCtx.is_inside`. -/
structure VelloAsset where
  data : VelloAssetData
deriving DecidableEq

/-- The first-render timestamp of an asset, for either variant. -/
def first_frame_of (a : VelloAsset) : Option ℚ :=
  match a.data with
  | .Svg ff => ff
  | .Lottie _ ff _ => ff

/-- The playhead of a Lottie asset, if it is one. -/
def lottie_rf (a : VelloAsset) : Option ℚ :=
  match a.data with
  | .Lottie _ _ rf => some rf
  | _ => none

/-- `Assets<VelloAsset>` as an association list keyed by handle id. -/
abbrev AssetStore : Type := List (Nat × VelloAsset)

/-- `assets.get(id)`. -/
def get_asset : AssetStore → Nat → Option VelloAsset
  | [], _ => none
  | (k, v) :: rest, id => if k = id then some v else get_asset rest id

/-- Write back a mutated asset (the player only mutates assets it fetched,
so an absent key is left absent). -/
def set_asset : AssetStore → Nat → VelloAsset → AssetStore
  | [], _, _ => []
  | (k, v) :: rest, id, a => if k = id then (k, a) :: rest else (k, v) :: set_asset rest id a

/-- A tagged trigger condition plus a destination state id
(`AnimationTransition`). -/
inductive AnimationTransition where
  | OnAfter (state : String) (secs : ℚ)
  | OnComplete (state : String)
  | OnMouseEnter (state : String)
  | OnMouseClick (state : String)
  | OnMouseLeave (state : String)
  | OnShow (state : String)
deriving DecidableEq

/-- A node in the state graph (`AnimationState`). The theme payload is
abstracted to an id, since its content never feeds back into playback. -/
structure AnimationState where
  id : String
  asset : Option Nat
  theme : Option Nat
  playback_settings : Option PlaybackSettings
  transitions : List AnimationTransition
  reset_playhead_on_transition : Bool
  reset_playhead_on_start : Bool
deriving DecidableEq

/-- The state-machine controller (`LottiePlayer`). The `HashMap` of states
is an association list keyed by state id. -/
structure LottiePlayer where
  initial_state : String
  current_state : String
  next_state : Option String
  states : List (String × AnimationState)
  pending_seek_frame : Option ℚ
  pending_intermission : Option ℚ
  pending_speed : Option ℚ
  started : Bool
  playing : Bool
  stopped : Bool
deriving DecidableEq

/-- `states.get(key)`. -/
def lookup_state : List (String × AnimationState) → String → Option AnimationState
  | [], _ => none
  | (k, v) :: rest, key => if k = key then some v else lookup_state rest key

/-- `LottiePlayer::new`. -/
def LottiePlayer.new (initial : String) : LottiePlayer where
  initial_state := initial
  current_state := initial
  next_state := some initial
  states := []
  pending_seek_frame := none
  pending_intermission := none
  pending_speed := none
  started := false
  playing := false
  stopped := false

/-- `LottiePlayer::with_state`. -/
def LottiePlayer.with_state (p : LottiePlayer) (st : AnimationState) : LottiePlayer :=
  { p with states := (st.id, st) :: p.states }

/-- `LottiePlayer::transition`. -/
def LottiePlayer.transition (p : LottiePlayer) (state : String) : LottiePlayer :=
  { p with next_state := some state }

/-- `LottiePlayer::seek`. -/
def LottiePlayer.seek (p : LottiePlayer) (frame : ℚ) : LottiePlayer :=
  { p with pending_seek_frame := some frame }

/-- `LottiePlayer::set_intermission`. -/
def LottiePlayer.set_intermission (p : LottiePlayer) (i : ℚ) : LottiePlayer :=
  { p with pending_intermission := some i }

/-- `LottiePlayer::set_speed`. -/
def LottiePlayer.set_speed (p : LottiePlayer) (s : ℚ) : LottiePlayer :=
  { p with pending_speed := some s }

/-- `LottiePlayer::play`. -/
def LottiePlayer.play (p : LottiePlayer) : LottiePlayer :=
  { p with playing := true, stopped := false }

/-- `LottiePlayer::pause`. -/
def LottiePlayer.pause (p : LottiePlayer) : LottiePlayer :=
  { p with playing := false }

/-- `LottiePlayer::stop`. -/
def LottiePlayer.stop (p : LottiePlayer) : LottiePlayer :=
  { p with stopped := true }

/-- `LottiePlayer::toggle_play`. -/
def LottiePlayer.toggle_play (p : LottiePlayer) : LottiePlayer :=
  if p.stopped || !p.playing then p.play else p.pause

/-- `LottiePlayer::is_playing`. -/
def LottiePlayer.is_playing (p : LottiePlayer) : Bool := p.playing

/-- `LottiePlayer::is_stopped`. -/
def LottiePlayer.is_stopped (p : LottiePlayer) : Bool := p.stopped

/-- The `loops_completed` computation of the pending-intermission branch of
`systems::apply_player_inputs`. -/
def loops_completed_now (ps : PlaybackSettings) (comp : VelloComposition) (rf : ℚ) : ℚ :=
  let length := comp.frames.stop - comp.frames.start
  if rf > length + ps.intermission then ((qtrunc (rf / (length + ps.intermission)) : ℤ) : ℚ)
  else if rf > length then 1
  else 0

/-- The `in_intermission` test of the pending-intermission branch of
`systems::apply_player_inputs`. -/
def in_intermission (ps : PlaybackSettings) (comp : VelloComposition) (rf : ℚ) : Prop :=
  rf > comp.frames.stop - comp.frames.start ∧
  rf ≥ loops_completed_now ps comp rf * (comp.frames.stop - comp.frames.start) ∧
  rf < loops_completed_now ps comp rf * (comp.frames.stop - comp.frames.start) + ps.intermission

instance (ps : PlaybackSettings) (comp : VelloComposition) (rf : ℚ) :
    Decidable (in_intermission ps comp rf) := by
  unfold in_intermission
  infer_instance

/-- The pending-intermission branch of `systems::apply_player_inputs`:
returns the new playhead and the updated settings. -/
def apply_intermission (intermission : ℚ) (ps : PlaybackSettings) (comp : VelloComposition)
    (rf : ℚ) : ℚ × PlaybackSettings :=
  let length := comp.frames.stop - comp.frames.start
  let loops_completed := loops_completed_now ps comp rf
  let rf2 :=
    if in_intermission ps comp rf then
      fprev (loops_completed * (length + intermission))
    else
      max (rf + (intermission - ps.intermission) * loops_completed) 0
  (rf2, { ps with intermission := intermission })

/-- `playback_settings.segments.start.max(composition.frames.start)`. -/
def effective_start (ps : PlaybackSettings) (comp : VelloComposition) : ℚ :=
  max ps.segments.start comp.frames.start

/-- `playback_settings.segments.end.min(composition.frames.end)`. -/
def effective_end (ps : PlaybackSettings) (comp : VelloComposition) : ℚ :=
  min ps.segments.stop comp.frames.stop

/-- The `seek_frame` value of the pending-seek branch of
`systems::apply_player_inputs`: the requested frame bounded to the effective
segment (end exclusive), mirrored about the effective end when the direction
is `Reverse`. -/
def seek_value (frame : ℚ) (ps : PlaybackSettings) (comp : VelloComposition) : ℚ :=
  let bounded_frame := rclamp frame (effective_start ps comp) (fprev (effective_end ps comp))
  match ps.direction with
  | .Normal => bounded_frame
  | .Reverse => effective_end ps comp - bounded_frame

/-- The pending-seek branch of `systems::apply_player_inputs`: returns the
new playhead. -/
def apply_seek (frame : ℚ) (ps : PlaybackSettings) (comp : VelloComposition) (rf : ℚ) : ℚ :=
  let length := effective_end ps comp - effective_start ps comp + ps.intermission
  let loops_completed := ((qtrunc (rf / length) : ℤ) : ℚ)
  loops_completed * length + seek_value frame ps comp

/-- One entity's pass of `systems::apply_player_inputs`, given a bound
Lottie asset: consumes the pending intermission, seek and speed requests in
that order and returns the updated player, settings and playhead. -/
def apply_player_inputs (p : LottiePlayer) (ps : PlaybackSettings) (comp : VelloComposition)
    (rf : ℚ) : LottiePlayer × PlaybackSettings × ℚ :=
  let s1 : LottiePlayer × PlaybackSettings × ℚ :=
    match p.pending_intermission with
    | some i =>
      let r := apply_intermission i ps comp rf
      ({ p with pending_intermission := none }, r.2, r.1)
    | none => (p, ps, rf)
  let s2 : LottiePlayer × ℚ :=
    match s1.1.pending_seek_frame with
    | some f => ({ s1.1 with pending_seek_frame := none }, apply_seek f s1.2.1 comp s1.2.2)
    | none => (s1.1, s1.2.2)
  match s2.1.pending_speed with
  | some sp => ({ s2.1 with pending_speed := none }, { s1.2.1 with speed := sp }, s2.2)
  | none => (s2.1, s1.2.1, s2.2)

/-- One entity of the `systems::advance_playheads` query: a bound asset
handle, an optional controller and optional playback settings. -/
structure AdvEntity where
  handle : Nat
  player : Option LottiePlayer
  playback_settings : Option PlaybackSettings
deriving DecidableEq

/-- The outcome of processing one entity in `systems::advance_playheads`:
either proceed to the next entity (`cont`, Rust `continue` / fallthrough)
or abort the whole stage (`halt`, the Rust `return` taken in the
no-controller arm). -/
inductive AdvStep where
  | cont (player : Option LottiePlayer) (assets : AssetStore)
  | halt (assets : AssetStore)

/-- The body of the `systems::advance_playheads` loop for one entity. -/
def advance_one (dt now : ℚ) (e : AdvEntity) (assets : AssetStore) : AdvStep :=
  match get_asset assets e.handle with
  | none => .cont e.player assets
  | some a =>
    match a.data with
    | .Svg _ => .cont e.player assets
    | .Lottie comp first_frame rf =>
      let ps := e.playback_settings.getD default_playback_settings
      match e.player with
      | none =>
        .halt (set_asset assets e.handle ⟨.Lottie comp first_frame (rf + dt * ps.speed * comp.frame_rate)⟩)
      | some player =>
        if player.stopped then .cont (some player) assets
        else
          let player1 := if ps.autoplay && !player.started then { player with playing := true } else player
          if !player1.playing then .cont (some player1) assets
          else
            let ff2 := if first_frame.isNone then some now else first_frame
            let player2 := if first_frame.isNone then { player1 with started := true } else player1
            .cont (some player2)
              (set_asset assets e.handle ⟨.Lottie comp ff2 (rf + dt * ps.speed * comp.frame_rate)⟩)

/-- `systems::advance_playheads`: iterate the entities in order; a `halt`
from `advance_one` (the uncontrolled-asset arm) aborts the stage for all
remaining entities. Returns the updated players and the asset store. -/
def advance_playheads (dt now : ℚ) : List AdvEntity → AssetStore → List AdvEntity × AssetStore
  | [], assets => ([], assets)
  | e :: rest, assets =>
    match advance_one dt now e assets with
    | .halt a2 => (e :: rest, a2)
    | .cont p2 a2 =>
      let r := advance_playheads dt now rest a2
      ({ e with player := p2 } :: r.1, r.2)

/-- The per-tick input context of `systems::run_transitions`: the pointer
hit-test outcome, the left-button edge, and the current time (used by
`Instant::elapsed`). -/
structure TransCtx where
  is_inside : Bool
  left_just_pressed : Bool
  now : ℚ
deriving DecidableEq

/-- The transition loop of `systems::run_transitions`: first rule whose
predicate holds wins and stops evaluation. Returns the fired destination
(if any) and the updated hovered latch, or the panic message raised by
`OnComplete` on an SVG asset. -/
def eval_transitions (ctx : TransCtx) (a : VelloAsset) (ps : PlaybackSettings) (sid : String) :
    List AnimationTransition → Bool → Except String (Option String × Bool)
  | [], hovered => .ok (none, hovered)
  | t :: rest, hovered =>
    match t with
    | .OnAfter st secs =>
      match first_frame_of a with
      | some s =>
        if ctx.now - s ≥ secs then .ok (some st, hovered)
        else eval_transitions ctx a ps sid rest hovered
      | none => eval_transitions ctx a ps sid rest hovered
    | .OnComplete st =>
      match a.data with
      | .Svg _ => .error ("invalid state: " ++ sid ++ ", OnComplete is only valid for Lottie files.")
      | .Lottie comp _ rf =>
        if rf ≥ comp.frames.stop - comp.frames.start + ps.intermission then .ok (some st, hovered)
        else eval_transitions ctx a ps sid rest hovered
    | .OnMouseEnter st =>
      if ctx.is_inside then .ok (some st, true)
      else eval_transitions ctx a ps sid rest hovered
    | .OnMouseClick st =>
      if ctx.is_inside && ctx.left_just_pressed then .ok (some st, hovered)
      else eval_transitions ctx a ps sid rest hovered
    | .OnMouseLeave st =>
      if hovered && !ctx.is_inside then .ok (some st, false)
      else if ctx.is_inside then eval_transitions ctx a ps sid rest true
      else eval_transitions ctx a ps sid rest hovered
    | .OnShow st =>
      if (first_frame_of a).isSome then .ok (some st, hovered)
      else eval_transitions ctx a ps sid rest hovered

/-- One entity's pass of `systems::run_transitions`. A stopped controller
is skipped before the asset is even fetched; a missing asset or a missing
current state is a panic (`.error`). Returns the updated player and the
hovered latch (a `Local<bool>` shared across entities, threaded here). -/
def run_transitions (ctx : TransCtx) (p : LottiePlayer) (ps : PlaybackSettings)
    (asset : Option VelloAsset) (hovered : Bool) : Except String (LottiePlayer × Bool) :=
  if p.stopped then .ok (p, hovered)
  else
    match asset with
    | none => .error ("asset not found for state: " ++ p.current_state)
    | some a =>
      match lookup_state p.states p.current_state with
      | none => .error ("state not found: " ++ p.current_state)
      | some st =>
        match eval_transitions ctx a ps p.current_state st.transitions hovered with
        | .error m => .error m
        | .ok (fired, h2) =>
          match fired with
          | some ns => .ok ({ p with next_state := some ns }, h2)
          | none => .ok (p, h2)

/-- The playhead remap of `systems::set_state` when no reset condition
holds, keyed by the outgoing and incoming directions. `playhead` is the
pre-transition playhead-bounds value (`asset.calculate_playhead`, an
external collaborator of this core, passed in as an input). -/
def remap_playhead (current target : AnimationDirection) (comp : VelloComposition)
    (playhead rf : ℚ) : ℚ :=
  match current, target with
  | .Normal, .Reverse => min (comp.frames.stop - playhead) (fprev comp.frames.stop)
  | .Reverse, .Normal => playhead
  | _, _ => min (rust_rem rf (comp.frames.stop - comp.frames.start)) (fprev comp.frames.stop)

/-- The result of one entity's pass of `systems::set_state`: the updated
controller, the entity's (possibly swapped) asset handle, the asset store,
and the playback-settings / theme components inserted on commit. -/
structure SetStateOut where
  controller : LottiePlayer
  handle : Nat
  assets : AssetStore
  inserted_settings : Option PlaybackSettings
  inserted_theme : Option Nat
deriving DecidableEq

/-- One entity's pass of `systems::set_state`. `playhead` stands for the
value of `asset.calculate_playhead(&playback_settings).unwrap()`, computed
by the asset collaborator outside this core. A missing state id is a panic
(`.error`); a not-yet-loaded target asset re-arms `next_state` and defers. -/
def set_state (controller : LottiePlayer) (ps_opt : Option PlaybackSettings)
    (cur_handle : Nat) (assets : AssetStore) (playhead : ℚ) : Except String SetStateOut :=
  match controller.next_state with
  | none => .ok ⟨controller, cur_handle, assets, none, none⟩
  | some ns =>
    let c1 : LottiePlayer := { controller with next_state := none, started := false, playing := false }
    match lookup_state controller.states ns with
    | none => .error ("state not found: " ++ ns)
    | some target =>
      let target_handle := target.asset.getD cur_handle
      match get_asset assets target_handle with
      | none => .ok ⟨{ c1 with next_state := some ns }, cur_handle, assets, none, none⟩
      | some a =>
        let changed_assets : Bool := cur_handle != target_handle
        let ps := ps_opt.getD default_playback_settings
        match a.data with
        | .Svg _ =>
          .ok ⟨{ c1 with current_state := ns }, target_handle,
            set_asset assets target_handle ⟨.Svg none⟩,
            some (target.playback_settings.getD default_playback_settings), target.theme⟩
        | .Lottie comp _ rf =>
          match lookup_state controller.states controller.current_state with
          | none => .error ("state not found: " ++ controller.current_state)
          | some cur_state =>
            let rf2 :=
              if cur_state.reset_playhead_on_transition || target.reset_playhead_on_start
                  || changed_assets then 0
              else
                remap_playhead ps.direction
                  ((target.playback_settings.map (fun pb => pb.direction)).getD .Normal)
                  comp playhead rf
            .ok ⟨{ c1 with current_state := ns }, target_handle,
              set_asset assets target_handle ⟨.Lottie comp none rf2⟩,
              some (target.playback_settings.getD default_playback_settings), target.theme⟩

example : apply_seek 10 default_playback_settings ⟨⟨0, 100⟩, 30⟩ 250 = 210 := by
  norm_num [apply_seek, seek_value, effective_start, effective_end, rclamp, fprev, feps,
    qtrunc, default_playback_settings, f32MIN, f32MAX]

example :
    (apply_intermission 50 { default_playback_settings with intermission := 20 }
      ⟨⟨0, 100⟩, 30⟩ 150).1 = 180 := by
  norm_num [apply_intermission, in_intermission, loops_completed_now, qtrunc,
    default_playback_settings]

/-! ### Fixtures: concrete players, states, assets used by witnesses and counterexamples -/

/-- A 100-frame composition at 30 fps. -/
def compC : VelloComposition := ⟨⟨0, 100⟩, 30⟩

/-- A bare state with no overrides and no transitions. -/
def stA : AnimationState := ⟨"a", none, none, none, [], false, false⟩

/-- A state whose asset override points at handle 5. -/
def stB : AnimationState := ⟨"b", some 5, none, none, [], false, false⟩

/-- A started, playing player with a pending transition to state b. -/
def pC1 : LottiePlayer :=
  ⟨"a", "a", some "b", [("a", stA), ("b", stB)], none, none, none, true, true, false⟩

/-- A started, playing player with no states (never consulted by the
advance stage). -/
def pPlay : LottiePlayer := ⟨"a", "a", none, [], none, none, none, true, true, false⟩

/-- Two Lottie assets; the second one has already rendered once. -/
def assetsC2 : AssetStore := [(1, ⟨.Lottie compC none 0⟩), (2, ⟨.Lottie compC (some 0) 0⟩)]

/-- Entity 1 has no controller; entity 2 has a playing controller. -/
def entsC2 : List AdvEntity := [⟨1, none, none⟩, ⟨2, some pPlay, some default_playback_settings⟩]

/-- A stopped player. -/
def pStop : LottiePlayer := ⟨"a", "a", none, [("a", stA)], none, none, none, true, true, true⟩

/-- A tick context with the pointer outside. -/
def ctx0 : TransCtx := ⟨false, false, 0⟩

/-! ### C10 -/

/-- Claim C10: `stop()` sets `stopped := true` and leaves every other
player field, in particular `playing`, unchanged; after `play()` followed
by `stop()`, `is_playing()` still returns `true` while `is_stopped()`
returns `true`, until `pause()` clears `playing`. -/
theorem claim_C10 (p : LottiePlayer) :
    p.stop.stopped = true ∧
    p.stop.playing = p.playing ∧
    p.stop.started = p.started ∧
    p.stop.initial_state = p.initial_state ∧
    p.stop.current_state = p.current_state ∧
    p.stop.next_state = p.next_state ∧
    p.stop.states = p.states ∧
    p.stop.pending_seek_frame = p.pending_seek_frame ∧
    p.stop.pending_intermission = p.pending_intermission ∧
    p.stop.pending_speed = p.pending_speed ∧
    p.play.stop.is_playing = true ∧
    p.play.stop.is_stopped = true ∧
    p.play.stop.pause.is_playing = false := by
  simp [LottiePlayer.stop, LottiePlayer.play, LottiePlayer.pause,
    LottiePlayer.is_playing, LottiePlayer.is_stopped]

/-! ### C9 -/

/-- Claim C9: a stopped player is skipped whole by `run_transitions`
(in particular `next_state` is never set, and the hovered latch is not
touched), and `advance_one` leaves the asset store, hence its
`rendered_frames`, unchanged for that entity. -/
theorem claim_C9 (p : LottiePlayer) (hstop : p.stopped = true)
    (ctx : TransCtx) (ps : PlaybackSettings) (asset : Option VelloAsset) (hovered : Bool)
    (dt now : ℚ) (h : Nat) (pso : Option PlaybackSettings) (assets : AssetStore) :
    run_transitions ctx p ps asset hovered = .ok (p, hovered) ∧
    advance_one dt now ⟨h, some p, pso⟩ assets = .cont (some p) assets := by
  constructor
  · simp [run_transitions, hstop]
  · unfold advance_one
    cases hga : get_asset assets h
    · simp
    · next a =>
      obtain ⟨d⟩ := a
      cases d <;> simp [hstop]

/-- Claim C9, witness: a concrete stopped player is left untouched by both
stages. -/
theorem claim_C9_witness :
    pStop.stopped = true ∧
    (run_transitions ctx0 pStop default_playback_settings (some ⟨.Lottie compC none 0⟩) false =
      .ok (pStop, false) ∧
    advance_one 1 0 ⟨1, some pStop, none⟩ [(1, ⟨.Lottie compC none 0⟩)] =
      .cont (some pStop) [(1, ⟨.Lottie compC none 0⟩)]) :=
  ⟨rfl, claim_C9 pStop rfl ctx0 default_playback_settings (some ⟨.Lottie compC none 0⟩) false
    1 0 1 none [(1, ⟨.Lottie compC none 0⟩)]⟩

/-! ### C1 -/

/-- Claim C1, counterexample: a started, playing player whose pending
transition targets a not-yet-loaded asset (handle 5, absent from the
store). The stage defers — `next_state` is re-armed, `current_state`, the
handle and the store are unchanged — but the `started` and `playing` flags
are cleared to `false`, so the observable state is not unchanged as the
claim states. -/
theorem claim_C1_counterexample :
    pC1.started = true ∧ pC1.playing = true ∧
    set_state pC1 (some default_playback_settings) 1 [] 0 =
      .ok ⟨{ pC1 with next_state := some "b", started := false, playing := false },
        1, [], none, none⟩ := by
  refine ⟨rfl, rfl, ?_⟩
  simp [set_state, pC1, stA, stB, lookup_state, get_asset]

/-- Claim C1, amended: when the pending `next_state` resolves to a state
whose target asset is not yet available, `set_state` re-arms `next_state`
to the same value and leaves `current_state`, the bound handle and the
asset store (hence the playhead) unchanged — but the `started` and
`playing` flags have already been cleared before the readiness check. -/
theorem claim_C1_amended (c : LottiePlayer) (ps_opt : Option PlaybackSettings)
    (h : Nat) (assets : AssetStore) (playhead : ℚ) (ns : String) (target : AnimationState)
    (h1 : c.next_state = some ns) (h2 : lookup_state c.states ns = some target)
    (h3 : get_asset assets (target.asset.getD h) = none) :
    set_state c ps_opt h assets playhead =
      .ok ⟨{ c with next_state := some ns, started := false, playing := false },
        h, assets, none, none⟩ := by
  simp [set_state, h1, h2, h3]

/-- Claim C1, witness for the amended theorem at the concrete deferral
input. -/
theorem claim_C1_witness :
    pC1.next_state = some "b" ∧
    lookup_state pC1.states "b" = some stB ∧
    get_asset [] (stB.asset.getD 1) = none ∧
    set_state pC1 (some default_playback_settings) 1 [] 0 =
      .ok ⟨{ pC1 with next_state := some "b", started := false, playing := false },
        1, [], none, none⟩ :=
  ⟨rfl, rfl, rfl,
    claim_C1_amended pC1 (some default_playback_settings) 1 [] 0 "b" stB rfl rfl rfl⟩

/-! ### C2 -/

/-- Claim C2: evaluation of `advance_playheads` at the failing input. The
first entity holds an uncontrolled Lottie asset (handle 1): it advances by
`dt * speed * frame_rate = 1 * 1 * 30`, and the stage then aborts (the
no-controller arm returns instead of continuing), so the second asset
(handle 2), although bound to a playing controller, is not advanced at all
this tick — contradicting the claim that one uncontrolled asset does not
prevent the remaining assets from being advanced. -/
theorem claim_C2_code_eval :
    pPlay.playing = true ∧ pPlay.stopped = false ∧
    (get_asset (advance_playheads 1 5 entsC2 assetsC2).2 1).bind lottie_rf = some 30 ∧
    (get_asset (advance_playheads 1 5 entsC2 assetsC2).2 2).bind lottie_rf = some 0 := by
  refine ⟨rfl, rfl, ?_, ?_⟩ <;>
    norm_num [advance_playheads, advance_one, entsC2, assetsC2, get_asset, set_asset,
      lottie_rf, compC, pPlay, default_playback_settings]

/-! ### C3 -/

/-- Modelled from the claim's words: the current loop's elapsed frames,
i.e. the playhead minus the span of the loops already completed (each of
length `frame_end - frame_start + intermission`). -/
def claim_loop_elapsed (ps : PlaybackSettings) (comp : VelloComposition) (rf : ℚ) : ℚ :=
  rf - ((⌊rf / (comp.frames.stop - comp.frames.start + ps.intermission)⌋ : ℤ) : ℚ) *
    (comp.frames.stop - comp.frames.start + ps.intermission)

/-- A state whose only transition is `OnComplete` to b. -/
def stOC : AnimationState := ⟨"a", none, none, none, [.OnComplete "b"], false, false⟩

/-- A non-stopped player sitting in `stOC` with no pending transition. -/
def pC3 : LottiePlayer :=
  ⟨"a", "a", none, [("a", stOC)], none, none, none, true, true, false⟩

/-- Claim C3, counterexample: with a 100-frame composition, zero
intermission and playhead 250 (third loop), the current loop's elapsed
frames are 50, strictly below `(frame_end - frame_start) + intermission =
100` — yet `run_transitions` fires the `OnComplete` rule, because the code
compares the accumulated `rendered_frames` (250), not the per-loop elapsed
frames. -/
theorem claim_C3_counterexample :
    claim_loop_elapsed default_playback_settings compC 250 <
      compC.frames.stop - compC.frames.start + default_playback_settings.intermission ∧
    run_transitions ctx0 pC3 default_playback_settings (some ⟨.Lottie compC none 250⟩) false =
      .ok ({ pC3 with next_state := some "b" }, false) := by
  constructor
  · norm_num [claim_loop_elapsed, compC, default_playback_settings]
  · norm_num [run_transitions, eval_transitions, pC3, stOC, lookup_state, compC,
      default_playback_settings]

/-- Claim C3, amended: for a non-stopped player with no pending transition
whose current state's transition list is `[OnComplete dest]`, bound to a
Lottie asset, `run_transitions` sets `next_state := dest` exactly when the
accumulated `rendered_frames` (not the per-loop elapsed frames) is at
least `(frame_end - frame_start) + intermission`; evaluating the same rule
against an SVG asset is a fatal error. -/
theorem claim_C3_amended (ctx : TransCtx) (p : LottiePlayer) (ps : PlaybackSettings)
    (st : AnimationState) (dest : String) (comp : VelloComposition) (ff : Option ℚ) (rf : ℚ)
    (hovered : Bool)
    (h1 : p.stopped = false) (h2 : p.next_state = none)
    (h3 : lookup_state p.states p.current_state = some st)
    (h4 : st.transitions = [.OnComplete dest]) :
    (run_transitions ctx p ps (some ⟨.Lottie comp ff rf⟩) hovered =
      .ok (if comp.frames.stop - comp.frames.start + ps.intermission ≤ rf
            then { p with next_state := some dest } else p, hovered)) ∧
    (∀ ffs : Option ℚ, ∃ m, run_transitions ctx p ps (some ⟨.Svg ffs⟩) hovered = .error m) := by
  constructor
  · by_cases hc : comp.frames.stop - comp.frames.start + ps.intermission ≤ rf
    · simp [run_transitions, eval_transitions, h1, h3, h4, hc, ge_iff_le]
    · have h5 : p = { p with next_state := none } := by
        cases p
        simp_all
      simp only [if_neg hc]
      rw [h5]
      simp [run_transitions, eval_transitions, h1, h3, h4, hc, ge_iff_le]
  · intro ffs
    refine ⟨"invalid state: " ++ p.current_state ++ ", OnComplete is only valid for Lottie files.", ?_⟩
    simp [run_transitions, eval_transitions, h1, h3, h4]

/-- Claim C3, witness for the amended theorem: at playhead 250 with a
100-frame composition and zero intermission the rule fires. -/
theorem claim_C3_witness :
    pC3.stopped = false ∧ pC3.next_state = none ∧
    run_transitions ctx0 pC3 default_playback_settings (some ⟨.Lottie compC none 250⟩) false =
      .ok (if compC.frames.stop - compC.frames.start + default_playback_settings.intermission ≤ 250
            then { pC3 with next_state := some "b" } else pC3, false) :=
  ⟨rfl, rfl,
    (claim_C3_amended ctx0 pC3 default_playback_settings stOC "b" compC none 250 false
      rfl rfl rfl rfl).1⟩

/-! ### C4 -/

/-- `qtrunc` agrees with the floor on nonnegative arguments. -/
theorem qtrunc_eq_floor (x : ℚ) (hx : 0 ≤ x) : qtrunc x = ⌊x⌋ := by
  simp [qtrunc, hx]

/-- Claim C4: applying a pending intermission change while the playhead is
not inside an intermission window (the code's own in-intermission test)
shifts the playhead to
`max 0 (rendered_frames + (new - old) * loops_completed)`, with
`loops_completed` given by the claim's floor formula. Stated for the sane
domain (nonnegative playhead and old intermission, nonempty frame range),
on which the code's `trunc` agrees with the claim's `floor`. -/
theorem claim_C4 (p : LottiePlayer) (ps : PlaybackSettings) (comp : VelloComposition)
    (rf newI : ℚ)
    (h1 : p.pending_intermission = some newI) (h2 : p.pending_seek_frame = none)
    (hni : ¬ in_intermission ps comp rf)
    (hrf : 0 ≤ rf) (hin : 0 ≤ ps.intermission)
    (hfr : comp.frames.start ≤ comp.frames.stop) :
    (apply_player_inputs p ps comp rf).2.2 =
      max 0 (rf + (newI - ps.intermission) *
        (if comp.frames.stop - comp.frames.start + ps.intermission < rf
          then ((⌊rf / (comp.frames.stop - comp.frames.start + ps.intermission)⌋ : ℤ) : ℚ)
          else if comp.frames.stop - comp.frames.start < rf then 1 else 0)) := by
  have hdiv : 0 ≤ rf / (comp.frames.stop - comp.frames.start + ps.intermission) := by
    apply div_nonneg hrf
    linarith
  have hloops : loops_completed_now ps comp rf =
      (if comp.frames.stop - comp.frames.start + ps.intermission < rf
        then ((⌊rf / (comp.frames.stop - comp.frames.start + ps.intermission)⌋ : ℤ) : ℚ)
        else if comp.frames.stop - comp.frames.start < rf then 1 else 0) := by
    rw [loops_completed_now, qtrunc_eq_floor _ hdiv]
  cases hsp : p.pending_speed <;>
    simp only [apply_player_inputs, h1, h2, hsp, apply_intermission, if_neg hni,
      max_comm, hloops]

/-- A player with a pending intermission change to 50. -/
def pI50 : LottiePlayer := ⟨"a", "a", none, [], none, some 50, none, true, true, false⟩

/-- Settings currently carrying intermission 20. -/
def psI20 : PlaybackSettings := { default_playback_settings with intermission := 20 }

/-- Claim C4, witness: `length=100`, old intermission 20, playhead 150
(outside intermission, one loop completed), new intermission 50: the
playhead becomes `150 + 30 * 1 = 180`. -/
theorem claim_C4_witness :
    pI50.pending_intermission = some 50 ∧
    ¬ in_intermission psI20 compC 150 ∧
    (apply_player_inputs pI50 psI20 compC 150).2.2 = 180 := by
  refine ⟨rfl, by norm_num [in_intermission, loops_completed_now, qtrunc, psI20, compC,
    default_playback_settings], ?_⟩
  have h := claim_C4 pI50 psI20 compC 150 50 rfl rfl
    (by norm_num [in_intermission, loops_completed_now, qtrunc, psI20, compC,
      default_playback_settings])
    (by norm_num) (by norm_num [psI20, default_playback_settings])
    (by norm_num [compC])
  rw [h]
  norm_num [psI20, compC, default_playback_settings]

/-! ### C5 -/

/-- Claim C5: applying a pending seek to frame `f` preserves the loop
count: the new playhead is `loops_completed * length + seek_value` with
`length = effective_end - effective_start + intermission`,
`loops_completed = floor(rendered_frames / length)` and `seek_value` the
requested frame bounded into the effective segment and mirrored about the
effective end when the direction is Reverse. Stated for the sane domain
(nonnegative playhead and intermission, nonempty effective segment), on
which the code's `trunc` agrees with the claim's `floor`. -/
theorem claim_C5 (p : LottiePlayer) (ps : PlaybackSettings) (comp : VelloComposition)
    (rf f : ℚ)
    (h1 : p.pending_seek_frame = some f) (h2 : p.pending_intermission = none)
    (hrf : 0 ≤ rf) (hin : 0 ≤ ps.intermission)
    (hse : effective_start ps comp < effective_end ps comp) :
    (apply_player_inputs p ps comp rf).2.2 =
      ((⌊rf / (effective_end ps comp - effective_start ps comp + ps.intermission)⌋ : ℤ) : ℚ) *
        (effective_end ps comp - effective_start ps comp + ps.intermission) +
      seek_value f ps comp := by
  have hdiv : 0 ≤ rf / (effective_end ps comp - effective_start ps comp + ps.intermission) := by
    apply div_nonneg hrf
    linarith
  cases hsp : p.pending_speed <;>
    simp only [apply_player_inputs, h1, h2, hsp, apply_seek, qtrunc_eq_floor _ hdiv]

/-- A player with a pending seek to frame 10. -/
def pS10 : LottiePlayer := ⟨"a", "a", none, [], some 10, none, none, true, true, false⟩

/-- Claim C5, witness: `length=100`, zero intermission, playhead 250
(loop 2), seek(10) lands on 210 — loop preserved — not on 10. -/
theorem claim_C5_witness :
    pS10.pending_seek_frame = some 10 ∧
    (apply_player_inputs pS10 default_playback_settings compC 250).2.2 = 210 ∧
    (apply_player_inputs pS10 default_playback_settings compC 250).2.2 ≠ 10 := by
  have h := claim_C5 pS10 default_playback_settings compC 250 10 rfl rfl
    (by norm_num) (by norm_num [default_playback_settings])
    (by norm_num [effective_start, effective_end, default_playback_settings, f32MIN, f32MAX, compC])
  refine ⟨rfl, ?_, ?_⟩ <;> rw [h] <;>
    norm_num [effective_start, effective_end, seek_value, rclamp, fprev, feps,
      default_playback_settings, f32MIN, f32MAX, compC]

/-! ### C6 -/

/-- Settings playing in Reverse, otherwise default. -/
def psR : PlaybackSettings := { default_playback_settings with direction := .Reverse }

/-- A player with a pending seek to frame 0. -/
def pS0 : LottiePlayer := ⟨"a", "a", none, [], some 0, none, none, true, true, false⟩

/-- Claim C6, counterexample: with Reverse direction, a 100-frame
composition, zero intermission and playhead 0, seeking to frame 0 once
yields 100 (the mirrored seek value equals the loop length), and seeking
to the same frame again immediately yields 200 — the second application
counts the first result as a completed loop, so the seek is not
idempotent. -/
theorem claim_C6_counterexample :
    (apply_player_inputs
        { (apply_player_inputs pS0 psR compC 0).1 with pending_seek_frame := some 0 }
        (apply_player_inputs pS0 psR compC 0).2.1 compC
        (apply_player_inputs pS0 psR compC 0).2.2).2.2 ≠
      (apply_player_inputs pS0 psR compC 0).2.2 := by
  norm_num [apply_player_inputs, apply_seek, seek_value, effective_start, effective_end,
    rclamp, fprev, feps, qtrunc, pS0, psR, default_playback_settings, f32MIN, f32MAX, compC]

/-- The seek arithmetic is idempotent when the seek value lands inside
`[0, length)`: in particular for Normal direction with effective start 0,
a nonnegative playhead and intermission, and a nondegenerate effective
end. -/
theorem apply_seek_idem (ps : PlaybackSettings) (comp : VelloComposition) (f rf : ℚ)
    (hdir : ps.direction = .Normal) (hes : effective_start ps comp = 0)
    (hee : feps ≤ effective_end ps comp) (hin : 0 ≤ ps.intermission) (hrf : 0 ≤ rf) :
    apply_seek f ps comp (apply_seek f ps comp rf) = apply_seek f ps comp rf := by
  have heps : (0 : ℚ) < feps := by norm_num [feps]
  have hL : 0 < effective_end ps comp - effective_start ps comp + ps.intermission := by
    rw [hes]
    linarith
  have hsv0 : 0 ≤ seek_value f ps comp := by
    rw [seek_value, hdir]
    simp only [rclamp, hes]
    apply le_min (le_max_right f 0)
    simp only [fprev]
    linarith
  have hsvL : seek_value f ps comp <
      effective_end ps comp - effective_start ps comp + ps.intermission := by
    rw [seek_value, hdir]
    simp only [rclamp, hes]
    have hmin : min (max f 0) (fprev (effective_end ps comp)) ≤ fprev (effective_end ps comp) :=
      min_le_right _ _
    have hlt : fprev (effective_end ps comp) <
        effective_end ps comp - effective_start ps comp + ps.intermission := by
      rw [fprev, hes]
      linarith
    linarith
  have hd1 : 0 ≤ rf / (effective_end ps comp - effective_start ps comp + ps.intermission) :=
    div_nonneg hrf hL.le
  have hn0 : (0 : ℤ) ≤ ⌊rf / (effective_end ps comp - effective_start ps comp + ps.intermission)⌋ :=
    Int.floor_nonneg.mpr hd1
  simp only [apply_seek, qtrunc_eq_floor _ hd1]
  have hrf2 : 0 ≤ ((⌊rf / (effective_end ps comp - effective_start ps comp + ps.intermission)⌋ : ℤ) : ℚ) *
      (effective_end ps comp - effective_start ps comp + ps.intermission) + seek_value f ps comp := by
    have : (0 : ℚ) ≤ ((⌊rf / (effective_end ps comp - effective_start ps comp + ps.intermission)⌋ : ℤ) : ℚ) := by
      exact_mod_cast hn0
    nlinarith
  rw [qtrunc_eq_floor _ (div_nonneg hrf2 hL.le)]
  have hsplit : (((⌊rf / (effective_end ps comp - effective_start ps comp + ps.intermission)⌋ : ℤ) : ℚ) *
        (effective_end ps comp - effective_start ps comp + ps.intermission) + seek_value f ps comp) /
        (effective_end ps comp - effective_start ps comp + ps.intermission) =
      ((⌊rf / (effective_end ps comp - effective_start ps comp + ps.intermission)⌋ : ℤ) : ℚ) +
        seek_value f ps comp / (effective_end ps comp - effective_start ps comp + ps.intermission) := by
    field_simp
  rw [hsplit, Int.floor_int_add]
  have hzero : ⌊seek_value f ps comp / (effective_end ps comp - effective_start ps comp + ps.intermission)⌋ = 0 := by
    rw [Int.floor_eq_zero_iff]
    constructor
    · exact div_nonneg hsv0 hL.le
    · rw [div_lt_one hL]
      exact hsvL
  rw [hzero, add_zero]

/-- Claim C6, amended: seeking to frame `f` twice in a row (two stage
passes with `pending_seek_frame = f` and no time elapsing between) yields
the same `rendered_frames` both times, provided the seek value lies inside
one loop length — in particular for Normal direction with effective start
0, nonnegative playhead and intermission, and an effective end of at least
one ulp. (Without these conditions the second pass can count the first
seek value as a completed loop, as the counterexample shows.) -/
theorem claim_C6_amended (p : LottiePlayer) (ps : PlaybackSettings) (comp : VelloComposition)
    (rf f : ℚ)
    (h1 : p.pending_seek_frame = some f) (h2 : p.pending_intermission = none)
    (h3 : p.pending_speed = none)
    (hdir : ps.direction = .Normal) (hes : effective_start ps comp = 0)
    (hee : feps ≤ effective_end ps comp) (hin : 0 ≤ ps.intermission) (hrf : 0 ≤ rf) :
    (apply_player_inputs { (apply_player_inputs p ps comp rf).1 with pending_seek_frame := some f }
        (apply_player_inputs p ps comp rf).2.1 comp
        (apply_player_inputs p ps comp rf).2.2).2.2 =
      (apply_player_inputs p ps comp rf).2.2 := by
  simp only [apply_player_inputs, h1, h2, h3]
  exact apply_seek_idem ps comp f rf hdir hes hee hin hrf

/-- A player with a pending seek to frame 10 and a positive playhead, for
the idempotence witness. -/
def pS10b : LottiePlayer := ⟨"a", "a", none, [], some 10, none, none, false, false, false⟩

/-- Claim C6, witness for the amended theorem: Normal direction, default
segments, playhead 250 — the second seek to frame 10 leaves the playhead
at the value the first one produced. -/
theorem claim_C6_witness :
    pS10b.pending_seek_frame = some 10 ∧
    default_playback_settings.direction = .Normal ∧
    (apply_player_inputs
        { (apply_player_inputs pS10b default_playback_settings compC 250).1 with
            pending_seek_frame := some 10 }
        (apply_player_inputs pS10b default_playback_settings compC 250).2.1 compC
        (apply_player_inputs pS10b default_playback_settings compC 250).2.2).2.2 =
      (apply_player_inputs pS10b default_playback_settings compC 250).2.2 :=
  ⟨rfl, rfl,
    claim_C6_amended pS10b default_playback_settings compC 250 10 rfl rfl rfl rfl
      (by norm_num [effective_start, default_playback_settings, f32MIN, compC])
      (by norm_num [effective_end, default_playback_settings, f32MAX, compC, feps])
      (by norm_num [default_playback_settings]) (by norm_num)⟩

/-! ### C7 -/

/-- Updating a present key makes the lookup return the new value. -/
theorem get_asset_set_asset (assets : AssetStore) (i : Nat) (v a : VelloAsset)
    (hget : get_asset assets i = some a) :
    get_asset (set_asset assets i v) i = some v := by
  induction assets with
  | nil => simp [get_asset] at hget
  | cons kv rest ih =>
    obtain ⟨k, w⟩ := kv
    by_cases hk : k = i
    · simp [get_asset, set_asset, hk]
    · simp only [get_asset, set_asset, if_neg hk] at hget ⊢
      exact ih hget

/-- A state entering Reverse playback, with no reset flags and no asset
override. -/
def stRev : AnimationState :=
  ⟨"b", none, none, some { default_playback_settings with direction := .Reverse }, [], false, false⟩

/-- A player about to commit a transition from `stA` (Normal) into `stRev`
(Reverse). -/
def pC7 : LottiePlayer :=
  ⟨"a", "a", some "b", [("a", stA), ("b", stRev)], none, none, none, true, true, false⟩

/-- Claim C7: when `set_state` commits a transition with no reset
condition (both reset flags false, asset identity unchanged) onto a ready
Lottie asset, the committed playhead is determined by the old/new
direction pair: Normal to Reverse mirrors the playhead-bounds value below
the exclusive end, Reverse to Normal keeps it, and an unchanged direction
collapses the playhead modulo the frame length, clamped below the
exclusive end. (`playhead` is the pre-transition playhead-bounds value,
`asset.calculate_playhead`, supplied by the asset collaborator.) -/
theorem claim_C7 (c : LottiePlayer) (ps : PlaybackSettings) (h : Nat)
    (assets : AssetStore) (playhead : ℚ) (ns : String) (target cur_state : AnimationState)
    (comp : VelloComposition) (ff : Option ℚ) (rf : ℚ)
    (h1 : c.next_state = some ns) (h2 : lookup_state c.states ns = some target)
    (h3 : lookup_state c.states c.current_state = some cur_state)
    (h4 : cur_state.reset_playhead_on_transition = false)
    (h5 : target.reset_playhead_on_start = false)
    (h6 : target.asset.getD h = h)
    (h7 : get_asset assets h = some ⟨.Lottie comp ff rf⟩) :
    (ps.direction = .Normal ∧
        (target.playback_settings.map (fun pb => pb.direction)).getD .Normal = .Reverse →
      (set_state c (some ps) h assets playhead).toOption.bind
          (fun o => (get_asset o.assets h).bind lottie_rf) =
        some (min (comp.frames.stop - playhead) (fprev comp.frames.stop))) ∧
    (ps.direction = .Reverse ∧
        (target.playback_settings.map (fun pb => pb.direction)).getD .Normal = .Normal →
      (set_state c (some ps) h assets playhead).toOption.bind
          (fun o => (get_asset o.assets h).bind lottie_rf) =
        some playhead) ∧
    (ps.direction = (target.playback_settings.map (fun pb => pb.direction)).getD .Normal →
      (set_state c (some ps) h assets playhead).toOption.bind
          (fun o => (get_asset o.assets h).bind lottie_rf) =
        some (min (rust_rem rf (comp.frames.stop - comp.frames.start))
          (fprev comp.frames.stop))) := by
  have hmain : (set_state c (some ps) h assets playhead).toOption.bind
      (fun o => (get_asset o.assets h).bind lottie_rf) =
      some (remap_playhead ps.direction
        ((target.playback_settings.map (fun pb => pb.direction)).getD .Normal)
        comp playhead rf) := by
    simp only [set_state, h1, h2, h6, h7, h3, h4, h5, Option.getD_some, bne_self_eq_false,
      Bool.false_eq_true, or_self, if_false, Bool.or_self]
    simp [Except.toOption, get_asset_set_asset assets h _ _ h7, lottie_rf]
  refine ⟨?_, ?_, ?_⟩
  · rintro ⟨hd1, hd2⟩
    rw [hmain, hd1, hd2, remap_playhead]
  · rintro ⟨hd1, hd2⟩
    rw [hmain, hd1, hd2, remap_playhead]
  · intro hd
    rw [hmain, ← hd]
    cases hdir : ps.direction <;> simp [remap_playhead]

/-- Claim C7, witness: `frame_start=0, frame_end=100`, old direction
Normal, playhead-bounds value 30, entering a Reverse state with no reset
flags: the committed playhead is `min(100 - 30, 100 - ulp) = 70`. -/
theorem claim_C7_witness :
    pC7.next_state = some "b" ∧
    stRev.reset_playhead_on_start = false ∧
    (set_state pC7 (some default_playback_settings) 1
        [(1, ⟨.Lottie compC (some 0) 123⟩)] 30).toOption.bind
      (fun o => (get_asset o.assets 1).bind lottie_rf) = some 70 := by
  have happ := claim_C7 pC7 default_playback_settings 1 [(1, ⟨.Lottie compC (some 0) 123⟩)]
    30 "b" stRev stA compC (some 0) 123 rfl rfl rfl rfl rfl rfl rfl
  refine ⟨rfl, rfl, ?_⟩
  have h1 := happ.1 ⟨rfl, rfl⟩
  rw [h1]
  norm_num [compC, fprev, feps]

/-! ### C8 -/

/-- Whether evaluating a rule against this asset panics (`OnComplete` on an
SVG). -/
def rule_panics (a : VelloAsset) : AnimationTransition → Bool
  | .OnComplete _ =>
    match a.data with
    | .Svg _ => true
    | .Lottie _ _ _ => false
  | _ => false

/-- Whether a rule's predicate holds this tick (its firing condition in
`run_transitions`), given the hovered latch value `b` it is examined
with. -/
def rule_fires (ctx : TransCtx) (a : VelloAsset) (ps : PlaybackSettings) (b : Bool) :
    AnimationTransition → Bool
  | .OnAfter _ secs =>
    match first_frame_of a with
    | some s => decide (ctx.now - s ≥ secs)
    | none => false
  | .OnComplete _ =>
    match a.data with
    | .Svg _ => false
    | .Lottie comp _ rf => decide (rf ≥ comp.frames.stop - comp.frames.start + ps.intermission)
  | .OnMouseEnter _ => ctx.is_inside
  | .OnMouseClick _ => ctx.is_inside && ctx.left_just_pressed
  | .OnMouseLeave _ => b && !ctx.is_inside
  | .OnShow _ => (first_frame_of a).isSome

/-- On a pointer-inside tick, once the hovered latch is true it can never
be cleared by the rest of the rule list. -/
theorem eval_transitions_hovered_true (ctx : TransCtx) (a : VelloAsset) (ps : PlaybackSettings)
    (sid : String) (hin : ctx.is_inside = true) :
    ∀ (l : List AnimationTransition) (r : Option String × Bool),
      eval_transitions ctx a ps sid l true = .ok r → r.2 = true := by
  intro l
  induction l with
  | nil =>
    intro r hr
    simp only [eval_transitions, Except.ok.injEq] at hr
    rw [← hr]
  | cons t rest ih =>
    intro r hr
    cases t with
    | OnAfter st secs =>
      simp only [eval_transitions] at hr
      cases hff : first_frame_of a <;> simp only [hff] at hr
      · exact ih r hr
      · next s =>
        by_cases hcond : ctx.now - s ≥ secs
        · simp only [if_pos hcond, Except.ok.injEq] at hr
          rw [← hr]
        · simp only [if_neg hcond] at hr
          exact ih r hr
    | OnComplete st =>
      simp only [eval_transitions] at hr
      rcases hdata : a.data with ff0 | ⟨comp, ffc, rfc⟩
      · simp only [hdata] at hr
        exact absurd hr (by simp)
      · simp only [hdata] at hr
        by_cases hcond : rfc ≥ comp.frames.stop - comp.frames.start + ps.intermission
        · simp only [if_pos hcond, Except.ok.injEq] at hr
          rw [← hr]
        · simp only [if_neg hcond] at hr
          exact ih r hr
    | OnMouseEnter st =>
      simp only [eval_transitions, hin, if_true, Except.ok.injEq] at hr
      rw [← hr]
    | OnMouseClick st =>
      simp only [eval_transitions] at hr
      by_cases hcond : (ctx.is_inside && ctx.left_just_pressed) = true
      · simp only [if_pos hcond, Except.ok.injEq] at hr
        rw [← hr]
      · simp only [if_neg hcond] at hr
        exact ih r hr
    | OnMouseLeave st =>
      simp only [eval_transitions, hin, Bool.not_true, Bool.and_false] at hr
      exact ih r hr
    | OnShow st =>
      simp only [eval_transitions] at hr
      by_cases hcond : (first_frame_of a).isSome = true
      · simp only [if_pos hcond, Except.ok.injEq] at hr
        rw [← hr]
      · simp only [if_neg hcond] at hr
        exact ih r hr

/-- On a pointer-inside tick, a prefix of rules none of which fires or
panics is skipped over by the evaluation, possibly raising the hovered
latch on the way (via a non-firing `OnMouseLeave`). -/
theorem eval_transitions_skip (ctx : TransCtx) (a : VelloAsset) (ps : PlaybackSettings)
    (sid : String) (hin : ctx.is_inside = true) :
    ∀ (l1 : List AnimationTransition),
      (∀ u ∈ l1, rule_panics a u = false ∧ ∀ b, rule_fires ctx a ps b u = false) →
      ∀ (rest : List AnimationTransition) (b : Bool),
        ∃ b2, eval_transitions ctx a ps sid (l1 ++ rest) b =
          eval_transitions ctx a ps sid rest b2 := by
  intro l1
  induction l1 with
  | nil =>
    intro _ rest b
    exact ⟨b, rfl⟩
  | cons u l1 ih =>
    intro hu rest b
    obtain ⟨hp, hf⟩ := hu u (List.mem_cons_self u l1)
    have hrest : ∀ v ∈ l1, rule_panics a v = false ∧ ∀ b, rule_fires ctx a ps b v = false :=
      fun v hv => hu v (List.mem_cons_of_mem u hv)
    cases u with
    | OnAfter st secs =>
      simp only [List.cons_append, eval_transitions]
      cases hff : first_frame_of a
      · simp only [hff]
        exact ih hrest rest b
      · next s =>
        have hb := hf b
        simp only [rule_fires, hff, decide_eq_false_iff_not] at hb
        simp only [hff, if_neg hb]
        exact ih hrest rest b
    | OnComplete st =>
      simp only [List.cons_append, eval_transitions]
      cases hdata : a.data
      · exfalso
        simp [rule_panics, hdata] at hp
      · next comp ffc rfc =>
        have hb := hf b
        simp only [rule_fires, hdata, decide_eq_false_iff_not] at hb
        simp only [hdata, if_neg hb]
        exact ih hrest rest b
    | OnMouseEnter st =>
      exfalso
      have hb := hf b
      simp [rule_fires, hin] at hb
    | OnMouseClick st =>
      have hc : (ctx.is_inside && ctx.left_just_pressed) = false := hf b
      simp only [List.cons_append, eval_transitions, hc, Bool.false_eq_true, if_false]
      exact ih hrest rest b
    | OnMouseLeave st =>
      simp only [List.cons_append, eval_transitions, hin, Bool.not_true, Bool.and_false,
        Bool.false_eq_true, if_false, if_true]
      exact ih hrest rest true
    | OnShow st =>
      have hc : (first_frame_of a).isSome = false := hf b
      simp only [List.cons_append, eval_transitions, hc, Bool.false_eq_true, if_false]
      exact ih hrest rest b

/-- Claim C8, amended: on a pointer-inside tick of a non-stopped player,
the hovered latch is true after the stage provided the evaluation reaches
an `OnMouseEnter` or `OnMouseLeave` rule (no earlier rule fires or
panics). With no mouse rule reached, the latch is left unchanged, as the
counterexample shows. -/
theorem claim_C8_amended (ctx : TransCtx) (p : LottiePlayer) (ps : PlaybackSettings)
    (a : VelloAsset) (hovered : Bool) (st : AnimationState)
    (l1 l2 : List AnimationTransition) (t : AnimationTransition)
    (hin : ctx.is_inside = true) (hstop : p.stopped = false)
    (hst : lookup_state p.states p.current_state = some st)
    (htr : st.transitions = l1 ++ t :: l2)
    (hmouse : (∃ s, t = .OnMouseEnter s) ∨ (∃ s, t = .OnMouseLeave s))
    (hskip : ∀ u ∈ l1, rule_panics a u = false ∧ ∀ b, rule_fires ctx a ps b u = false)
    (r : LottiePlayer × Bool)
    (hr : run_transitions ctx p ps (some a) hovered = .ok r) :
    r.2 = true := by
  simp only [run_transitions, hstop, hst, Bool.false_eq_true, if_false, htr] at hr
  obtain ⟨b2, hb2⟩ := eval_transitions_skip ctx a ps p.current_state hin l1 hskip
    (t :: l2) hovered
  rw [hb2] at hr
  rcases hmouse with ⟨s, rfl⟩ | ⟨s, rfl⟩
  · simp only [eval_transitions, hin, if_true] at hr
    cases hr
    rfl
  · simp only [eval_transitions, hin, Bool.not_true, Bool.and_false, Bool.false_eq_true,
      if_false, if_true] at hr
    cases heval : eval_transitions ctx a ps p.current_state l2 true with
    | error m =>
      rw [heval] at hr
      simp at hr
    | ok pr =>
      rw [heval] at hr
      have hh := eval_transitions_hovered_true ctx a ps p.current_state hin l2 pr heval
      obtain ⟨fired, hv⟩ := pr
      simp only at hh
      cases fired <;> simp only [Except.ok.injEq] at hr <;> rw [← hr] <;> exact hh

/-- A non-stopped player in a state with no transitions. -/
def pC8 : LottiePlayer := ⟨"a", "a", none, [("a", stA)], none, none, none, true, true, false⟩

/-- A tick context with the pointer inside. -/
def ctxIn : TransCtx := ⟨true, false, 0⟩

/-- Claim C8, counterexample: a non-stopped player whose current state has
no transition rules, on a pointer-inside tick: the hovered latch stays
false after the stage, so it is not set true independently of the rules
— it is set only inside the `OnMouseEnter`/`OnMouseLeave` arms. -/
theorem claim_C8_counterexample :
    ctxIn.is_inside = true ∧ pC8.stopped = false ∧
    run_transitions ctxIn pC8 default_playback_settings (some ⟨.Lottie compC none 0⟩) false =
      .ok (pC8, false) := by
  refine ⟨rfl, rfl, ?_⟩
  simp [run_transitions, eval_transitions, pC8, stA, lookup_state]

/-- A state with a non-firing `OnShow` rule ahead of an `OnMouseEnter`. -/
def stW8 : AnimationState := ⟨"a", none, none, none, [.OnShow "x", .OnMouseEnter "h"], false, false⟩

/-- A non-stopped player sitting in `stW8`. -/
def pW8 : LottiePlayer := ⟨"a", "a", none, [("a", stW8)], none, none, none, true, true, false⟩

/-- An asset that has never rendered (so `OnShow` does not fire). -/
def aW8 : VelloAsset := ⟨.Lottie compC none 0⟩

/-- The stage outcome at the witness input: the enter rule fires and the
latch is raised. -/
def rW8 : LottiePlayer × Bool := ({ pW8 with next_state := some "h" }, true)

/-- Claim C8, witness for the amended theorem: pointer inside, a non-firing
`OnShow` ahead of an `OnMouseEnter` — the stage fires the enter rule and
the hovered latch is true afterwards. -/
theorem claim_C8_witness :
    run_transitions ctxIn pW8 default_playback_settings (some aW8) false = .ok rW8 ∧
    rW8.2 = true := by
  have hrun : run_transitions ctxIn pW8 default_playback_settings (some aW8) false = .ok rW8 := by
    simp [run_transitions, eval_transitions, pW8, stW8, aW8, lookup_state, first_frame_of,
      rW8, ctxIn]
  refine ⟨hrun, ?_⟩
  refine claim_C8_amended ctxIn pW8 default_playback_settings aW8 false stW8
    [.OnShow "x"] [] (.OnMouseEnter "h") rfl rfl rfl rfl (Or.inl ⟨"h", rfl⟩) ?_ rW8 hrun
  intro u hu
  simp only [List.mem_singleton] at hu
  subst hu
  exact ⟨rfl, fun b => rfl⟩
